import Mathlib

/-!
# Notary server bootstrap: a shallow embedding

The development embeds `cmd/notary-server/main.go` (the functions `main` and
`getMysqlDB`) as Lean functions producing an explicit trace of the external
calls they perform, and states the properties of the specification over that
trace.  The metadata store and the signature verifier of the specification,
which are not part of the two source files, are modelled from the
specification text and are marked as such.
-/

namespace Notary

/-! ## External values -/

/-- Handle returned by `sql.Open(driverName, dataSourceName)`. -/
structure DB where
  driver : String
  dsn : String
  deriving DecidableEq, Repr

/-- The `tls.Config` built by `getMysqlDB`; only the field `RootCAs` is ever
assigned.  A certificate pool is the list of certificates it holds, `none` is
the Go `nil` pool (the host's default roots). -/
structure TLSConfig where
  RootCAs : Option (List String)
  deriving DecidableEq, Repr

/-- The value of type `signed.CryptoService` that `main` holds in `trust`:
either the result of `signer.NewRufusSigner(hostname, port, tlsCAFile)` or the
result of `signed.NewEd25519()`. -/
inductive CryptoService where
  | rufusSigner (hostname port tlsCAFile : String)
  | ed25519
  deriving DecidableEq, Repr

/-- The value stored in the context under `"metaStore"`: the result of
`storage.NewMySQLStorage(db)` or of `storage.NewMemStorage()`. -/
inductive MetaStore where
  | mysqlStorage (db : DB)
  | memStorage
  deriving DecidableEq, Repr

/-- A `context.Context` as the list of its key/value bindings, innermost
(latest `WithValue`) first. -/
abbrev Context := List (String × MetaStore)

/-- The result of `context.Background()`. -/
def Background : Context := []

/-- The result of `context.WithValue(ctx, key, val)`. -/
def WithValue (ctx : Context) (key : String) (val : MetaStore) : Context :=
  (key, val) :: ctx

/-- The result of `ctx.Value(key)`: the innermost binding of `key`. -/
def Value (ctx : Context) (key : String) : Option MetaStore :=
  (ctx.find? (fun b => b.1 == key)).map Prod.snd

/-- The viper registry as `main` reads it: typed getters on string keys.  A
key that is not set reads as the zero value (`""`, `false`, `0`), except
`logging.level`, for which `init` registers the default 2. -/
structure Viper where
  GetString : String → String
  GetBool : String → Bool
  GetInt : String → Int

/-! ## Observable calls -/

/-- The external calls made by `main` and `getMysqlDB`, in program order. -/
inductive Event where
  | goDebugServer (addr : String)
  | ReadInConfig
  | logError (msg : String)
  | logInfo (msg : String)
  | logFatal (msg : String)
  | SetLevel (level : Nat)
  | NewRufusSigner (hostname port tlsCAFile : String)
  | NewEd25519
  | ReadFile (path : String)
  | AppendCertsFromPEM (pem : String)
  | RegisterTLSConfig (key : String) (config : TLSConfig)
  | sqlOpen (driverName dataSourceName : String)
  | NewMySQLStorage (db : DB)
  | NewMemStorage
  | Run (ctx : Context) (addr tlsCertFile tlsKeyFile : String) (trust : CryptoService)
  deriving DecidableEq, Repr

/-- How a function activation ends: it returns a value, the process exits
(`os.Exit`, also through `logrus.Fatal`), or the goroutine panics. -/
inductive Outcome (α : Type) where
  | ret (a : α)
  | exited (code : Nat)
  | panicked
  deriving DecidableEq, Repr

/-- An execution: the calls made so far and how the activation ended. -/
structure Exec (α : Type) where
  trace : List Event
  outcome : Outcome α

/-- Sequencing: the continuation runs only when the first part returned. -/
def Exec.bind {α β : Type} (m : Exec α) (f : α → Exec β) : Exec β :=
  match m.outcome with
  | .ret a => ⟨m.trace ++ (f a).trace, (f a).outcome⟩
  | .exited c => ⟨m.trace, .exited c⟩
  | .panicked => ⟨m.trace, .panicked⟩

instance : Monad Exec where
  pure a := ⟨[], .ret a⟩
  bind := Exec.bind

/-- Record one external call. -/
def emit (e : Event) : Exec Unit := ⟨[e], .ret ()⟩

/-- The call `os.Exit(code)`. -/
def osExit {α : Type} (code : Nat) : Exec α := ⟨[], .exited code⟩

/-- The call `logrus.Fatal(msg, ...)`: logs, then calls `os.Exit(1)`. -/
def logrusFatal {α : Type} (msg : String) : Exec α := ⟨[.logFatal msg], .exited 1⟩

/-- A nil-pointer dereference. -/
def goPanic {α : Type} : Exec α := ⟨[], .panicked⟩

/-- Everything outside the program that its run depends on. -/
structure World where
  /-- value of the flag `-debug` -/
  debug : Bool
  /-- `http.ListenAndServe(addr, nil)` in the goroutine of `debugServer`:
  `none` when it serves for as long as the process lives, `some n` when it
  returns an error once the function that started the goroutine has made `n`
  more calls -/
  ListenAndServe : String → Option Nat
  /-- value of the flag `-config` -/
  configFile : String
  /-- `viper.ReadInConfig()`: an error, or the registry filled from the file -/
  ReadInConfig : Except String Viper
  /-- `ioutil.ReadFile(path)` -/
  ReadFile : String → Except String String
  /-- the certificates `x509` parses out of a PEM text -/
  certsOfPEM : String → List String
  /-- `sql.Open(driverName, dataSourceName)` -/
  sqlOpen : String → String → Except String DB
  /-- `server.Run(ctx, addr, tlsCertFile, tlsKeyFile, trust)`: the error it
  returns, `none` for `nil` -/
  Run : Context → String → String → String → CryptoService → Option String

/-- The method `(*x509.CertPool).AppendCertsFromPEM`: adds the certificates
found in `pem` to the pool and reports whether any was found. -/
def AppendCertsFromPEM (w : World) (pool : List String) (pem : String) : List String × Bool :=
  (pool ++ w.certsOfPEM pem, !(w.certsOfPEM pem).isEmpty)

/-! ## The regular expression of `getMysqlDB` -/

/-- Regular expressions, as far as `regexp` syntax is used by the program. -/
inductive Regex where
  | empty
  | eps
  | lit (c : Char)
  | anyCharNotNL
  | cat (r s : Regex)
  | alt (r s : Regex)
  | star (r : Regex)
  deriving DecidableEq, Repr

/-- Whether the expression matches the empty text. -/
def Regex.nullable : Regex → Bool
  | .empty => false
  | .eps => true
  | .lit _ => false
  | .anyCharNotNL => false
  | .cat r s => r.nullable && s.nullable
  | .alt r s => r.nullable || s.nullable
  | .star _ => true

/-- The expression matching what is left of a match after the character `c`. -/
def Regex.deriv (c : Char) : Regex → Regex
  | .empty => .empty
  | .eps => .empty
  | .lit d => if c = d then .eps else .empty
  | .anyCharNotNL => if c = Char.ofNat 10 then .empty else .eps
  | .cat r s =>
      if r.nullable then .alt (.cat (r.deriv c) s) (s.deriv c) else .cat (r.deriv c) s
  | .alt r s => .alt (r.deriv c) (s.deriv c)
  | .star r => .cat (r.deriv c) (.star r)

/-- Whether the expression matches some prefix of the text. -/
def Regex.matchesPrefix : Regex → List Char → Bool
  | r, [] => r.nullable
  | r, c :: cs => r.nullable || (r.deriv c).matchesPrefix cs

/-- Whether the expression matches some substring of the text. -/
def Regex.matchesWithin : Regex → List Char → Bool
  | r, [] => r.matchesPrefix []
  | r, c :: cs => r.matchesPrefix (c :: cs) || r.matchesWithin cs

/-- The method `(*regexp.Regexp).MatchString`: the text contains a match. -/
def MatchString (re : Regex) (s : String) : Bool :=
  re.matchesWithin s.data

/-- The result of `regexp.MustCompile("/.*\\?")`: a slash, any run of
characters other than newline, a question mark. -/
def dsnParamsRegexp : Regex :=
  .cat (.lit '/') (.cat (.star .anyCharNotNL) (.lit '?'))

/-- The texts an expression matches in full (`.` stands for any character but
newline, as `regexp` has it by default). -/
inductive Regex.Matches : Regex → List Char → Prop
  | eps : Regex.Matches .eps []
  | lit (c : Char) : Regex.Matches (.lit c) [c]
  | anyCharNotNL (c : Char) (h : c ≠ Char.ofNat 10) : Regex.Matches .anyCharNotNL [c]
  | cat {r q : Regex} {s t : List Char} :
      Regex.Matches r s → Regex.Matches q t → Regex.Matches (.cat r q) (s ++ t)
  | altL {r q : Regex} {s : List Char} : Regex.Matches r s → Regex.Matches (.alt r q) s
  | altR {r q : Regex} {s : List Char} : Regex.Matches q s → Regex.Matches (.alt r q) s
  | starNil {r : Regex} : Regex.Matches (.star r) []
  | starCons {r : Regex} {c : Char} {s t : List Char} :
      Regex.Matches r (c :: s) → Regex.Matches (.star r) t →
      Regex.Matches (.star r) (c :: (s ++ t))

/-! ## `getMysqlDB` and `main` -/

/-- DebugAddress is the debug server address to listen on. -/
def DebugAddress : String := "localhost:8080"

/-- The function `getMysqlDB` of `main.go`. -/
def getMysqlDB (w : World) (v : Viper) : Exec DB := do
  let mut dbURL := v.GetString "storage.db_url"
  let useSSL := v.GetBool "storage.db_use_ssl"
  if useSSL then
    let mut tlsConfig : TLSConfig := { RootCAs := none }
    let caCert := v.GetString "storage.db_ssl_ca_cert"
    if caCert ≠ "" then
      let rootCertPool : List String := []
      emit (.ReadFile caCert)
      match w.ReadFile caCert with
      | .error _ =>
        logrusFatal "[Notary Server] Error loading DB CA certificate:"
      | .ok pem =>
        emit (.AppendCertsFromPEM pem)
        let (pool, ok) := AppendCertsFromPEM w rootCertPool pem
        if !ok then
          logrusFatal "[Notary Server] Error appending DB CA certificates from PEM file:"
        tlsConfig := { tlsConfig with RootCAs := some pool }
    emit (.RegisterTLSConfig "notary" tlsConfig)
    if MatchString dsnParamsRegexp dbURL then
      dbURL := dbURL ++ "&tls=notary"
    else
      dbURL := dbURL ++ "?tls=notary"
  emit (.sqlOpen "mysql" dbURL)
  match w.sqlOpen "mysql" dbURL with
  | .error _ => logrusFatal "[Notary Server] Error starting DB driver: "
  | .ok db => return db

/-- The function `debugServer` of `main.go`, which `main` runs as a goroutine:
when `http.ListenAndServe` returns an error it calls `logrus.Fatal`, which
ends the whole process.  The value is that call together with the number of
calls the starting function makes before it, `none` when the listener keeps
serving.  The `logrus.Info` line of the goroutine, which can fall anywhere
among the calls of `main`, is left out of the trace. -/
def debugServer (w : World) (addr : String) : Option (Nat × Event) :=
  (w.ListenAndServe addr).map fun n =>
    (n, Event.logFatal "[Notary Debug Server] error listening on debug interface: ")

/-- The statement `go f(...)` followed by the rest of the function, for a
goroutine that may end the process: the rest runs to its end, unless the
goroutine ends the process first, after `n` calls of the rest, with status
1. -/
def goThen {α : Type} (started : Event) (goroutine : Option (Nat × Event)) (rest : Exec α) :
    Exec α :=
  match goroutine with
  | none => ⟨started :: rest.trace, rest.outcome⟩
  | some (n, fatal) =>
    if n < rest.trace.length then ⟨started :: (rest.trace.take n ++ [fatal]), .exited 1⟩
    else ⟨started :: rest.trace, rest.outcome⟩

/-- Lines 55 to 106 of `main` in `main.go`: everything after the debug
goroutine is started.  The two signal channels, which nothing reads
afterwards, leave no call in the trace.  The variable `trust`, declared
without a value and assigned in both branches, is bound to the value
assigned.  The conversion `logrus.Level(...)` is to an 8-bit unsigned
integer. -/
def mainBody (w : World) : Exec Unit := do
  let mut ctx := Background
  emit .ReadInConfig
  match w.ReadInConfig with
  | .error _ =>
    emit (.logError "Viper Error: ")
    emit (.logError "Could not read config at ")
    osExit 1
  | .ok v =>
    emit (.SetLevel (v.GetInt "logging.level" % 256).toNat)
    let trust : CryptoService ←
      if v.GetString "trust_service.type" = "remote" then do
        emit (.logInfo "[Notary Server] : Using remote signing service")
        emit (.NewRufusSigner (v.GetString "trust_service.hostname")
          (v.GetString "trust_service.port") (v.GetString "trust_service.tls_ca_file"))
        pure (.rufusSigner (v.GetString "trust_service.hostname")
          (v.GetString "trust_service.port") (v.GetString "trust_service.tls_ca_file"))
      else do
        emit (.logInfo "[Notary Server] : Using local signing service")
        emit .NewEd25519
        pure .ed25519
    if v.GetString "store.backend" = "mysql" then
      let db ← getMysqlDB w v
      emit (.NewMySQLStorage db)
      ctx := WithValue ctx "metaStore" (.mysqlStorage db)
    else
      emit .NewMemStorage
      ctx := WithValue ctx "metaStore" .memStorage
    emit (.logInfo "[Notary Server] Starting Server")
    emit (.Run ctx (v.GetString "server.addr") (v.GetString "server.tls_cert_file")
      (v.GetString "server.tls_key_file") trust)
    match w.Run ctx (v.GetString "server.addr") (v.GetString "server.tls_cert_file")
        (v.GetString "server.tls_key_file") trust with
    | none => goPanic
    | some _ =>
      emit (.logError "[Notary Server]")
      return

/-- The function `main` of `main.go`: after flag parsing, which leaves no call
in the trace, it starts `debugServer` as a goroutine when `-debug` is set and
goes on with `mainBody`. -/
def main (w : World) : Exec Unit :=
  if w.debug then
    goThen (.goDebugServer DebugAddress) (debugServer w DebugAddress) (mainBody w)
  else mainBody w

/-! ## Observations on traces -/

/-- The data source names passed to `sql.Open`, in call order. -/
def openedDSNs (t : List Event) : List String :=
  t.filterMap fun e => match e with
    | .sqlOpen _ dsn => some dsn
    | _ => none

/-- The TLS configurations registered with the MySQL driver, in call order. -/
def registeredTLS (t : List Event) : List (String × TLSConfig) :=
  t.filterMap fun e => match e with
    | .RegisterTLSConfig key config => some (key, config)
    | _ => none

/-- The paths passed to `ioutil.ReadFile`, in call order. -/
def filesRead (t : List Event) : List String :=
  t.filterMap fun e => match e with
    | .ReadFile path => some path
    | _ => none

/-- The trust services constructed, in call order. -/
def trustConstructed (t : List Event) : List CryptoService :=
  t.filterMap fun e => match e with
    | .NewRufusSigner h p c => some (.rufusSigner h p c)
    | .NewEd25519 => some .ed25519
    | _ => none

/-- The metadata stores constructed, in call order. -/
def storesConstructed (t : List Event) : List MetaStore :=
  t.filterMap fun e => match e with
    | .NewMySQLStorage db => some (.mysqlStorage db)
    | .NewMemStorage => some .memStorage
    | _ => none

/-- The arguments of one call of `server.Run`. -/
structure RunCall where
  ctx : Context
  addr : String
  tlsCertFile : String
  tlsKeyFile : String
  trust : CryptoService
  deriving DecidableEq, Repr

/-- The calls of `server.Run`, in call order. -/
def runCalls (t : List Event) : List RunCall :=
  t.filterMap fun e => match e with
    | .Run ctx a c k tr => some ⟨ctx, a, c, k, tr⟩
    | _ => none

/-- The calls that only `getMysqlDB` makes. -/
def Event.ofGetMysqlDB : Event → Bool
  | .ReadFile _ => true
  | .AppendCertsFromPEM _ => true
  | .RegisterTLSConfig _ _ => true
  | .sqlOpen _ _ => true
  | .logFatal _ => true
  | _ => false

/-! ## The parameter section of a data source name -/

/-- The text after the last `/` of a data source name (where the database
name starts), `none` when there is no `/`. -/
def afterLastSlash : List Char → Option (List Char)
  | [] => none
  | c :: cs =>
    match afterLastSlash cs with
    | some r => some r
    | none => if c = '/' then some cs else none

/-- Whether a data source name has a parameter section: a `?` after the last
`/`, the one that introduces the database name. -/
def hasParameterSection (dsn : String) : Bool :=
  match afterLastSlash dsn.data with
  | some r => r.contains '?'
  | none => false

/-! ## Metadata store (specification section 4.1) -/

/-- The roles of a collection. -/
inductive Role where
  | root
  | targets
  | snapshot
  | timestamp
  deriving DecidableEq, Repr

/-- Every role, in a fixed order. -/
def Role.all : List Role := [.root, .targets, .snapshot, .timestamp]

/-- One signed metadata document with the version it declares. -/
structure MetadataVersion where
  version : Int
  blob : String
  deriving DecidableEq, Repr

/-- The typed errors of the metadata store. -/
inductive StoreError where
  | NotFound
  | VersionConflict
  | BackendUnavailable
  deriving DecidableEq, Repr

/-- Modelled from the spec: the state of the Metadata Store of section 4.1,
whose implementation (package `server/storage`) is not among the source
files.  Per collection and per role it holds the append-only history of
committed versions, oldest first. -/
abbrev Store := String → Role → List MetadataVersion

/-- The store in which nothing was ever written. -/
def Store.empty : Store := fun _ _ => []

/-- Modelled from the spec: `GetCurrent(collection, role)` of section 4.1,
absent from the source files: "returns the highest committed version for that
role, or not-found if the collection/role has never been written". -/
def GetCurrent (s : Store) (collection : String) (role : Role) : Option MetadataVersion :=
  (s collection role).foldl
    (fun best m =>
      match best with
      | none => some m
      | some b => if b.version < m.version then some m else some b)
    none

/-- A bundle: `{role → blob with declared version}`. -/
abbrev Bundle := Role → Option MetadataVersion

/-- Modelled from the spec: the version a bundle has to declare for a role
under section 4.1, "exactly `currentVersion + 1` for a role that already has
history, or exactly `1` for a role with no history". -/
def expectedVersion (s : Store) (collection : String) (role : Role) : Int :=
  match GetCurrent s collection role with
  | some cur => cur.version + 1
  | none => 1

/-- Modelled from the spec: `CommitBundle(collection, bundle)` of section 4.1,
absent from the source files, for the in-memory store (which has no backend
that can be unavailable): the check-all-expected-versions-then-append-all of
section 9.  The result is the store afterwards and the error, if any. -/
def CommitBundle (s : Store) (collection : String) (bundle : Bundle) :
    Store × Option StoreError :=
  if Role.all.all (fun r =>
      match bundle r with
      | none => true
      | some m => decide (m.version = expectedVersion s collection r)) then
    (fun c r =>
      if c = collection then
        match bundle r with
        | some m => s c r ++ [m]
        | none => s c r
      else s c r, none)
  else (s, some .VersionConflict)

/-! ## Signature verifier (specification section 4.2) -/

/-- A signature attached to a metadata version: key identifier and signature
bytes. -/
structure Signature where
  keyID : String
  sig : String
  deriving DecidableEq, Repr

/-- Modelled from the spec: the key identifiers of the signatures that
section 4.2 counts, in the order of the signature list.  `check keyID digest
sig` is the cryptographic check of one signature under the public key that
the identifier names; a signature counts when its key identifier is among the
authorized keys and the check passes. -/
def validSignerIDs (check : String → String → String → Bool) (digest : String)
    (signatures : List Signature) (authorizedKeys : List String) : List String :=
  signatures.filterMap fun s =>
    if s.keyID ∈ authorizedKeys ∧ check s.keyID digest s.sig = true then some s.keyID else none

/-- Modelled from the spec: `Verify(blob, signatures, authorizedKeys,
threshold)` of section 4.2, absent from the source files: "Computes the
canonical digest of `blob`, checks each signature against `authorizedKeys` by
key identifier, counts distinct valid signatures (a key signing twice counts
once), and succeeds iff the count ≥ `threshold`. [...] Must reject if
`authorizedKeys` is empty or `threshold` ≤ 0". -/
def Verify (check : String → String → String → Bool) (canonicalDigest : String → String)
    (blob : String) (signatures : List Signature) (authorizedKeys : List String)
    (threshold : Int) : Bool :=
  if authorizedKeys.isEmpty || decide (threshold ≤ 0) then false
  else
    decide (threshold ≤
      ((validSignerIDs check (canonicalDigest blob) signatures authorizedKeys).dedup.length : Int))

/-- The count of the specification read key by key: the number of distinct
authorized keys that have at least one valid signature over the digest. -/
def distinctValidSigners (check : String → String → String → Bool) (digest : String)
    (signatures : List Signature) (authorizedKeys : List String) : Nat :=
  (authorizedKeys.dedup.filter fun k =>
    signatures.any fun s => decide (s.keyID = k) && check k digest s.sig).length

/-! ## Concrete runs -/

/-- A registry that sets the listed string keys and boolean keys and nothing
else. -/
def Viper.ofList (strings : List (String × String)) (bools : List (String × Bool)) : Viper where
  GetString k := ((strings.find? (fun b => b.1 == k)).map Prod.snd).getD ""
  GetBool k := ((bools.find? (fun b => b.1 == k)).map Prod.snd).getD false
  GetInt k := if k = "logging.level" then 2 else 0

/-- A world in which the debug server is off, the configuration file yields
`v`, no file can be read, `sql.Open` succeeds and `server.Run` returns an
error. -/
def World.ofConfig (v : Viper) : World where
  debug := false
  ListenAndServe _ := none
  configFile := "config.json"
  ReadInConfig := .ok v
  ReadFile _ := .error "open: no such file or directory"
  certsOfPEM _ := []
  sqlOpen driverName dataSourceName := .ok ⟨driverName, dataSourceName⟩
  Run _ _ _ _ _ := some "listen tcp: address already in use"

/-- A world in which the configuration file cannot be read. -/
def worldNoConfig : World :=
  { World.ofConfig (Viper.ofList [] []) with ReadInConfig := .error "Config File Not Found" }

/-- The world of `World.ofConfig` with the debug server on and serving. -/
def worldDebugServing (v : Viper) : World :=
  { World.ofConfig v with debug := true }

/-- The world of `World.ofConfig` with the debug server on and its listener
failing once `main` has made `n` more calls. -/
def worldDebugFailing (v : Viper) (n : Nat) : World :=
  { World.ofConfig v with debug := true, ListenAndServe := fun _ => some n }

/-- An empty configuration: every key reads as its zero value. -/
def cfgEmpty : Viper := Viper.ofList [] []

/-- A configuration whose trust service type is `Remote`, capitalised. -/
def cfgCapitalRemote : Viper :=
  Viper.ofList [("trust_service.type", "Remote"), ("trust_service.hostname", "signer"),
    ("trust_service.port", "7899"), ("trust_service.tls_ca_file", "ca.pem")] []

/-- A configuration selecting the remote signer. -/
def cfgRemote : Viper :=
  Viper.ofList [("trust_service.type", "remote"), ("trust_service.hostname", "signer"),
    ("trust_service.port", "7899"), ("trust_service.tls_ca_file", "ca.pem"),
    ("server.addr", ":4443")] []

/-- A configuration selecting MySQL without TLS. -/
def cfgMysqlPlain : Viper :=
  Viper.ofList [("store.backend", "mysql"), ("storage.db_url", "root@tcp(db:3306)/notary")] []

/-- A configuration selecting MySQL with TLS and a certificate authority file
that does not exist. -/
def cfgMysqlMissingCA : Viper :=
  Viper.ofList [("store.backend", "mysql"), ("storage.db_url", "root@tcp(db:3306)/notary"),
    ("storage.db_ssl_ca_cert", "/missing/ca.pem")] [("storage.db_use_ssl", true)]

/-- A configuration selecting MySQL with TLS and no certificate authority
file. -/
def cfgMysqlDefaultRoots : Viper :=
  Viper.ofList [("store.backend", "mysql"), ("storage.db_url", "root@tcp(db:3306)/notary")]
    [("storage.db_use_ssl", true)]

/-- A configuration selecting MySQL with TLS whose password holds a `/` and a
`?`; its data source name has no parameter section. -/
def cfgSlashInPassword : Viper :=
  Viper.ofList [("store.backend", "mysql"),
    ("storage.db_url", "user:p/w?d@tcp(db:3306)/notary")] [("storage.db_use_ssl", true)]

/-- A world in which the certificate authority file of `cfgMysqlMissingCA` can
be read and holds no certificate. -/
def worldGarbageCA : World :=
  { World.ofConfig cfgMysqlMissingCA with ReadFile := fun _ => .ok "not a certificate" }

/-- A signature check that accepts the signature text `good` only. -/
def checkGood : String → String → String → Bool := fun _ _ sig => sig == "good"

set_option maxHeartbeats 1000000

/-! ## Calls made by `getMysqlDB` -/

theorem getMysqlDB_events (w : World) (v : Viper) :
    (getMysqlDB w v).trace.all Event.ofGetMysqlDB = true := by
  unfold getMysqlDB
  simp only [bind, Exec.bind, emit, pure, logrusFatal]
  repeat' split
  all_goals simp_all [Event.ofGetMysqlDB]

theorem filterMap_eq_nil_of_all {α β : Type} (f : α → Option β) (p : α → Bool) (l : List α)
    (hl : l.all p = true) (hf : ∀ a, p a = true → f a = none) : l.filterMap f = [] := by
  induction l with
  | nil => rfl
  | cons a t ih =>
    simp only [List.all_cons, Bool.and_eq_true] at hl
    simp [List.filterMap_cons, hf a hl.1, ih hl.2]

theorem getMysqlDB_trustConstructed (w : World) (v : Viper) :
    trustConstructed (getMysqlDB w v).trace = [] := by
  apply filterMap_eq_nil_of_all _ _ _ (getMysqlDB_events w v)
  intro a ha
  cases a <;> simp_all [Event.ofGetMysqlDB]

theorem getMysqlDB_storesConstructed (w : World) (v : Viper) :
    storesConstructed (getMysqlDB w v).trace = [] := by
  apply filterMap_eq_nil_of_all _ _ _ (getMysqlDB_events w v)
  intro a ha
  cases a <;> simp_all [Event.ofGetMysqlDB]

theorem getMysqlDB_runCalls (w : World) (v : Viper) :
    runCalls (getMysqlDB w v).trace = [] := by
  apply filterMap_eq_nil_of_all _ _ _ (getMysqlDB_events w v)
  intro a ha
  cases a <;> simp_all [Event.ofGetMysqlDB]


/-- The data source name that `getMysqlDB` opens when TLS is on and the run
gets as far as `sql.Open`: the configured name with `&tls=notary` appended
when the regular expression matches it, with `?tls=notary` otherwise. -/
theorem getMysqlDB_with_ssl_dsn (w : World) (v : Viper)
    (hssl : v.GetBool "storage.db_use_ssl" = true)
    (hopen : openedDSNs (getMysqlDB w v).trace ≠ []) :
    openedDSNs (getMysqlDB w v).trace =
      [v.GetString "storage.db_url" ++
        (if MatchString dsnParamsRegexp (v.GetString "storage.db_url") then "&tls=notary"
          else "?tls=notary")] := by
  revert hopen
  unfold getMysqlDB
  simp only [bind, Exec.bind, emit, pure, logrusFatal, hssl]
  repeat' split
  all_goals simp_all [openedDSNs]

/-! ## The debug goroutine -/

/-- An observation that ignores the two calls of the debug goroutine sees, of
a run that the goroutine ended, a prefix of what it sees of the whole run. -/
theorem filterMap_cut {β : Type} (f : Event → Option β) (t : List Event) (n : Nat)
    (e1 e2 : Event) (h1 : f e1 = none) (h2 : f e2 = none) :
    ∃ k, (e1 :: (t.take n ++ [e2])).filterMap f = (t.filterMap f).take k := by
  have hp : (t.take n).filterMap f <+: t.filterMap f := (List.take_prefix n t).filterMap f
  refine ⟨((t.take n).filterMap f).length, ?_⟩
  rw [List.filterMap_cons_none h1, List.filterMap_append, List.filterMap_cons_none h2,
    List.filterMap_nil, List.append_nil]
  exact List.prefix_iff_eq_take.mp hp

/-- A run of `main` is a run of `mainBody`, or a run of `mainBody` that the
debug goroutine ended with status 1. -/
theorem main_observed {β : Type} (f : Event → Option β)
    (hgo : ∀ a, f (.goDebugServer a) = none) (hfatal : ∀ m, f (.logFatal m) = none)
    (w : World) :
    ((main w).trace.filterMap f = (mainBody w).trace.filterMap f
        ∧ (main w).outcome = (mainBody w).outcome)
    ∨ ∃ k, (main w).trace.filterMap f = ((mainBody w).trace.filterMap f).take k
        ∧ (main w).outcome = .exited 1
        ∧ Event.logFatal "[Notary Debug Server] error listening on debug interface: "
            ∈ (main w).trace := by
  unfold main
  cases w.debug with
  | false => exact Or.inl ⟨rfl, rfl⟩
  | true =>
    simp only [if_true]
    unfold goThen debugServer
    cases w.ListenAndServe DebugAddress with
    | none =>
      refine Or.inl ⟨?_, rfl⟩
      simp only [Option.map_none']
      exact List.filterMap_cons_none (hgo _)
    | some n =>
      simp only [Option.map_some']
      by_cases hn : n < (mainBody w).trace.length
      · rw [if_pos hn]
        obtain ⟨k, hk⟩ := filterMap_cut f (mainBody w).trace n
          (.goDebugServer DebugAddress) _ (hgo _) (hfatal _)
        exact Or.inr ⟨k, hk, rfl, by simp⟩
      · rw [if_neg hn]
        exact Or.inl ⟨List.filterMap_cons_none (hgo _), rfl⟩

theorem main_trustConstructed (w : World) :
    (trustConstructed (main w).trace = trustConstructed (mainBody w).trace
        ∧ (main w).outcome = (mainBody w).outcome)
    ∨ ∃ k, trustConstructed (main w).trace = (trustConstructed (mainBody w).trace).take k
        ∧ (main w).outcome = .exited 1
        ∧ Event.logFatal "[Notary Debug Server] error listening on debug interface: "
            ∈ (main w).trace :=
  main_observed _ (fun _ => rfl) (fun _ => rfl) w

theorem main_runCalls (w : World) :
    (runCalls (main w).trace = runCalls (mainBody w).trace
        ∧ (main w).outcome = (mainBody w).outcome)
    ∨ ∃ k, runCalls (main w).trace = (runCalls (mainBody w).trace).take k
        ∧ (main w).outcome = .exited 1
        ∧ Event.logFatal "[Notary Debug Server] error listening on debug interface: "
            ∈ (main w).trace :=
  main_observed _ (fun _ => rfl) (fun _ => rfl) w

theorem main_storesConstructed (w : World) :
    (storesConstructed (main w).trace = storesConstructed (mainBody w).trace
        ∧ (main w).outcome = (mainBody w).outcome)
    ∨ ∃ k, storesConstructed (main w).trace = (storesConstructed (mainBody w).trace).take k
        ∧ (main w).outcome = .exited 1
        ∧ Event.logFatal "[Notary Debug Server] error listening on debug interface: "
            ∈ (main w).trace :=
  main_observed _ (fun _ => rfl) (fun _ => rfl) w

theorem main_openedDSNs (w : World) :
    (openedDSNs (main w).trace = openedDSNs (mainBody w).trace
        ∧ (main w).outcome = (mainBody w).outcome)
    ∨ ∃ k, openedDSNs (main w).trace = (openedDSNs (mainBody w).trace).take k
        ∧ (main w).outcome = .exited 1
        ∧ Event.logFatal "[Notary Debug Server] error listening on debug interface: "
            ∈ (main w).trace :=
  main_observed _ (fun _ => rfl) (fun _ => rfl) w

theorem main_registeredTLS (w : World) :
    (registeredTLS (main w).trace = registeredTLS (mainBody w).trace
        ∧ (main w).outcome = (mainBody w).outcome)
    ∨ ∃ k, registeredTLS (main w).trace = (registeredTLS (mainBody w).trace).take k
        ∧ (main w).outcome = .exited 1
        ∧ Event.logFatal "[Notary Debug Server] error listening on debug interface: "
            ∈ (main w).trace :=
  main_observed _ (fun _ => rfl) (fun _ => rfl) w

theorem main_filesRead (w : World) :
    (filesRead (main w).trace = filesRead (mainBody w).trace
        ∧ (main w).outcome = (mainBody w).outcome)
    ∨ ∃ k, filesRead (main w).trace = (filesRead (mainBody w).trace).take k
        ∧ (main w).outcome = .exited 1
        ∧ Event.logFatal "[Notary Debug Server] error listening on debug interface: "
            ∈ (main w).trace :=
  main_observed _ (fun _ => rfl) (fun _ => rfl) w

/-! ## Trust service selection (C1) -/

/-- What `mainBody` does about the trust service once the configuration is
read. -/
theorem mainBody_trust (w : World) (v : Viper) (hcfg : w.ReadInConfig = .ok v) :
    trustConstructed (mainBody w).trace = [if v.GetString "trust_service.type" = "remote" then
          CryptoService.rufusSigner (v.GetString "trust_service.hostname")
            (v.GetString "trust_service.port") (v.GetString "trust_service.tls_ca_file")
         else CryptoService.ed25519]
    ∧ (∀ r ∈ runCalls (mainBody w).trace, r.trust = (if v.GetString "trust_service.type" = "remote" then
          CryptoService.rufusSigner (v.GetString "trust_service.hostname")
            (v.GetString "trust_service.port") (v.GetString "trust_service.tls_ca_file")
         else CryptoService.ed25519))
    ∧ ((v.GetString "store.backend" = "mysql" → ∃ db, (getMysqlDB w v).outcome = .ret db) →
        (runCalls (mainBody w).trace).map RunCall.trust = [if v.GetString "trust_service.type" = "remote" then
          CryptoService.rufusSigner (v.GetString "trust_service.hostname")
            (v.GetString "trust_service.port") (v.GetString "trust_service.tls_ca_file")
         else CryptoService.ed25519]) := by
  have hT := getMysqlDB_trustConstructed w v
  have hR := getMysqlDB_runCalls w v
  unfold mainBody
  simp only [bind, Exec.bind, emit, pure, osExit, goPanic, hcfg]
  generalize getMysqlDB w v = g at *
  obtain ⟨gt, go⟩ := g
  simp only at *
  by_cases ht : v.GetString "trust_service.type" = "remote"
    <;> by_cases hb : v.GetString "store.backend" = "mysql"
    <;> simp only [ht, hb, reduceIte, Bool.false_eq_true, forall_true_left, false_implies,
      ne_eq, not_true_eq_false, not_false_eq_true] at *
    <;> cases go
    <;> (try simp only [])
    <;> (try split)
    <;> simp only [trustConstructed, runCalls, List.filterMap_append] at hT hR ⊢
    <;> simp [hT, hR]

/-- C1 as stated fails in two ways.  With `-debug` set and the debug listener
failing right after the configuration is read, the process ends with status 1
and no trust service was constructed.  With `store.backend` equal to `mysql`,
TLS on and an unreadable certificate authority file, the local signer is
constructed and `server.Run` is never called with it. -/
theorem main_trust_selection_counterexample :
    (worldDebugFailing cfgRemote 2).ReadInConfig = .ok cfgRemote
    ∧ Event.ReadInConfig ∈ (main (worldDebugFailing cfgRemote 2)).trace
    ∧ (main (worldDebugFailing cfgRemote 2)).outcome = .exited 1
    ∧ trustConstructed (main (worldDebugFailing cfgRemote 2)).trace = []
    ∧ trustConstructed (main (World.ofConfig cfgMysqlMissingCA)).trace
        = [CryptoService.ed25519]
    ∧ runCalls (main (World.ofConfig cfgMysqlMissingCA)).trace = [] := by
  refine ⟨rfl, ?_, ?_, ?_, ?_, ?_⟩ <;> decide

/-- C1, amended: once the configuration is read, in every run `main`
constructs at most one trust service and only the one that
`trust_service.type` selects: the remote signer client built from
`trust_service.hostname`, `trust_service.port` and `trust_service.tls_ca_file`
when the value is exactly `remote`, the local Ed25519 signer for every other
value; every call of `server.Run` receives that value.  In every run that the
debug goroutine does not end, exactly one trust service is constructed, and
when in addition `getMysqlDB`, if it is called, returns, `server.Run` is
called exactly once, with that value. -/
theorem main_trust_selection (w : World) (v : Viper) (hcfg : w.ReadInConfig = .ok v) :
    (trustConstructed (main w).trace = []
      ∨ trustConstructed (main w).trace = [if v.GetString "trust_service.type" = "remote" then
          CryptoService.rufusSigner (v.GetString "trust_service.hostname")
            (v.GetString "trust_service.port") (v.GetString "trust_service.tls_ca_file")
         else CryptoService.ed25519])
    ∧ (∀ r ∈ runCalls (main w).trace, r.trust = (if v.GetString "trust_service.type" = "remote" then
          CryptoService.rufusSigner (v.GetString "trust_service.hostname")
            (v.GetString "trust_service.port") (v.GetString "trust_service.tls_ca_file")
         else CryptoService.ed25519))
    ∧ (Event.logFatal "[Notary Debug Server] error listening on debug interface: "
          ∉ (main w).trace →
        trustConstructed (main w).trace = [if v.GetString "trust_service.type" = "remote" then
          CryptoService.rufusSigner (v.GetString "trust_service.hostname")
            (v.GetString "trust_service.port") (v.GetString "trust_service.tls_ca_file")
         else CryptoService.ed25519]
        ∧ ((v.GetString "store.backend" = "mysql" →
              ∃ db, (getMysqlDB w v).outcome = .ret db) →
            (runCalls (main w).trace).map RunCall.trust = [if v.GetString "trust_service.type" = "remote" then
          CryptoService.rufusSigner (v.GetString "trust_service.hostname")
            (v.GetString "trust_service.port") (v.GetString "trust_service.tls_ca_file")
         else CryptoService.ed25519])) := by
  obtain ⟨hbT, hbR, hbRun⟩ := mainBody_trust w v hcfg
  refine ⟨?_, ?_, ?_⟩
  · rcases main_trustConstructed w with ⟨h, -⟩ | ⟨k, h, -, -⟩
    · exact Or.inr (by rw [h, hbT])
    · rw [h, hbT]
      cases k with
      | zero => exact Or.inl rfl
      | succ k => exact Or.inr (by simp)
  · intro r hr
    rcases main_runCalls w with ⟨h, -⟩ | ⟨k, h, -, -⟩
    · rw [h] at hr
      exact hbR r hr
    · rw [h] at hr
      exact hbR r (List.mem_of_mem_take hr)
  · intro hno
    constructor
    · rcases main_trustConstructed w with ⟨h, -⟩ | ⟨k, -, -, hf⟩
      · rw [h, hbT]
      · exact absurd hf hno
    · intro hret
      rcases main_runCalls w with ⟨h, -⟩ | ⟨k, -, -, hf⟩
      · rw [h]
        exact hbRun hret
      · exact absurd hf hno

/-- Witness of C1 amended: with `trust_service.type` set to `Remote`
(capitalised) the local signer is the one constructed and passed to
`server.Run`; with `remote`, and the debug server on and serving, it is the
remote signer client. -/
theorem main_trust_selection_witness :
    (World.ofConfig cfgCapitalRemote).ReadInConfig = .ok cfgCapitalRemote
    ∧ Event.logFatal "[Notary Debug Server] error listening on debug interface: "
        ∉ (main (World.ofConfig cfgCapitalRemote)).trace
    ∧ trustConstructed (main (World.ofConfig cfgCapitalRemote)).trace = [CryptoService.ed25519]
    ∧ (runCalls (main (World.ofConfig cfgCapitalRemote)).trace).map RunCall.trust
        = [CryptoService.ed25519]
    ∧ (worldDebugServing cfgRemote).debug = true
    ∧ trustConstructed (main (worldDebugServing cfgRemote)).trace
        = [CryptoService.rufusSigner "signer" "7899" "ca.pem"]
    ∧ (runCalls (main (worldDebugServing cfgRemote)).trace).map RunCall.trust
        = [CryptoService.rufusSigner "signer" "7899" "ca.pem"] :=
  ⟨rfl, by decide,
    ((main_trust_selection (World.ofConfig cfgCapitalRemote) cfgCapitalRemote rfl).2.2
      (by decide)).1.trans (by decide),
    (((main_trust_selection (World.ofConfig cfgCapitalRemote) cfgCapitalRemote rfl).2.2
      (by decide)).2 (fun h => absurd h (by decide))).trans (by decide),
    rfl,
    ((main_trust_selection (worldDebugServing cfgRemote) cfgRemote rfl).2.2
      (by decide)).1.trans (by decide),
    (((main_trust_selection (worldDebugServing cfgRemote) cfgRemote rfl).2.2
      (by decide)).2 (fun h => absurd h (by decide))).trans (by decide)⟩

/-! ## Store backend selection (C2) -/

/-- Looking up the key just bound gives the value bound. -/
theorem Value_WithValue (ctx : Context) (key : String) (val : MetaStore) :
    Value (WithValue ctx key val) key = some val := by
  simp [Value, WithValue]

/-- What `mainBody` does about the metadata store once the configuration is
read. -/
theorem mainBody_store (w : World) (v : Viper) (hcfg : w.ReadInConfig = .ok v) :
    (v.GetString "store.backend" = "mysql" →
      ∀ db, (getMysqlDB w v).outcome = .ret db →
        storesConstructed (mainBody w).trace = [MetaStore.mysqlStorage db]
        ∧ (runCalls (mainBody w).trace).map RunCall.ctx
            = [WithValue Background "metaStore" (MetaStore.mysqlStorage db)])
    ∧ (v.GetString "store.backend" ≠ "mysql" →
        storesConstructed (mainBody w).trace = [MetaStore.memStorage]
        ∧ (runCalls (mainBody w).trace).map RunCall.ctx
            = [WithValue Background "metaStore" MetaStore.memStorage]
        ∧ openedDSNs (mainBody w).trace = []
        ∧ registeredTLS (mainBody w).trace = []
        ∧ filesRead (mainBody w).trace = []) := by
  have hS := getMysqlDB_storesConstructed w v
  have hR := getMysqlDB_runCalls w v
  unfold mainBody
  simp only [bind, Exec.bind, emit, pure, osExit, goPanic, hcfg]
  generalize getMysqlDB w v = g at *
  obtain ⟨gt, go⟩ := g
  simp only at *
  by_cases ht : v.GetString "trust_service.type" = "remote"
    <;> by_cases hb : v.GetString "store.backend" = "mysql"
    <;> simp only [ht, hb, reduceIte, Bool.false_eq_true, forall_true_left, false_implies,
      ne_eq, not_true_eq_false, not_false_eq_true] at *
    <;> cases go
    <;> (try simp only [])
    <;> (try split)
    <;> simp only [storesConstructed, runCalls, openedDSNs, registeredTLS, filesRead,
      List.filterMap_append] at hS hR ⊢
    <;> simp_all

/-- C2 as stated fails in two ways.  With `store.backend` equal to `mysql`,
TLS on and a certificate authority file that cannot be read, `main` ends in
`logrus.Fatal` inside `getMysqlDB`: no metadata store is constructed and
`server.Run` is never called.  With `-debug` set and the debug listener
failing right after the trust service is constructed, the process ends with
status 1 the same way, for a configuration that selects the in-memory
store. -/
theorem main_store_selection_counterexample :
    (cfgMysqlMissingCA.GetString "store.backend" = "mysql"
      ∧ (main (World.ofConfig cfgMysqlMissingCA)).outcome = .exited 1
      ∧ storesConstructed (main (World.ofConfig cfgMysqlMissingCA)).trace = []
      ∧ runCalls (main (World.ofConfig cfgMysqlMissingCA)).trace = [])
    ∧ (cfgEmpty.GetString "store.backend" ≠ "mysql"
      ∧ trustConstructed (main (worldDebugFailing cfgEmpty 4)).trace = [CryptoService.ed25519]
      ∧ (main (worldDebugFailing cfgEmpty 4)).outcome = .exited 1
      ∧ storesConstructed (main (worldDebugFailing cfgEmpty 4)).trace = []
      ∧ runCalls (main (worldDebugFailing cfgEmpty 4)).trace = []) := by
  refine ⟨⟨?_, ?_, ?_, ?_⟩, ?_, ?_, ?_, ?_, ?_⟩ <;> decide

/-- C2, amended: once the configuration is read, in every run in which the
in-memory store is selected (`store.backend` is not exactly `mysql`) nothing
is opened, no TLS configuration is registered and no file is read.  In every
run that the debug goroutine does not end and in which `getMysqlDB`, if it is
called, returns, `main` constructs exactly one metadata store and binds it
under `metaStore` in the context passed to `server.Run`: the MySQL store on
the handle `getMysqlDB` returned when `store.backend` is exactly `mysql`, the
in-memory store for every other value. -/
theorem main_store_selection (w : World) (v : Viper) (hcfg : w.ReadInConfig = .ok v) :
    (v.GetString "store.backend" ≠ "mysql" →
      openedDSNs (main w).trace = []
      ∧ registeredTLS (main w).trace = []
      ∧ filesRead (main w).trace = [])
    ∧ (Event.logFatal "[Notary Debug Server] error listening on debug interface: "
          ∉ (main w).trace →
        (v.GetString "store.backend" = "mysql" →
          ∀ db, (getMysqlDB w v).outcome = .ret db →
            storesConstructed (main w).trace = [MetaStore.mysqlStorage db]
            ∧ (runCalls (main w).trace).map RunCall.ctx
                = [WithValue Background "metaStore" (MetaStore.mysqlStorage db)])
        ∧ (v.GetString "store.backend" ≠ "mysql" →
            storesConstructed (main w).trace = [MetaStore.memStorage]
            ∧ (runCalls (main w).trace).map RunCall.ctx
                = [WithValue Background "metaStore" MetaStore.memStorage])) := by
  obtain ⟨hmy, hmem⟩ := mainBody_store w v hcfg
  refine ⟨?_, ?_⟩
  · intro hb
    obtain ⟨-, -, ho, hr, hf⟩ := hmem hb
    refine ⟨?_, ?_, ?_⟩
    · rcases main_openedDSNs w with ⟨h, -⟩ | ⟨k, h, -, -⟩ <;> rw [h, ho]
      exact List.take_nil
    · rcases main_registeredTLS w with ⟨h, -⟩ | ⟨k, h, -, -⟩ <;> rw [h, hr]
      exact List.take_nil
    · rcases main_filesRead w with ⟨h, -⟩ | ⟨k, h, -, -⟩ <;> rw [h, hf]
      exact List.take_nil
  · intro hno
    have hS : storesConstructed (main w).trace = storesConstructed (mainBody w).trace := by
      rcases main_storesConstructed w with ⟨h, -⟩ | ⟨k, -, -, hfat⟩
      · exact h
      · exact absurd hfat hno
    have hR : runCalls (main w).trace = runCalls (mainBody w).trace := by
      rcases main_runCalls w with ⟨h, -⟩ | ⟨k, -, -, hfat⟩
      · exact h
      · exact absurd hfat hno
    rw [hS, hR]
    exact ⟨hmy, fun hb => ⟨(hmem hb).1, (hmem hb).2.1⟩⟩

/-- Witness of C2 amended: the empty configuration gets the in-memory store
and opens nothing; the plain MySQL configuration gets the MySQL store. -/
theorem main_store_selection_witness :
    (World.ofConfig cfgEmpty).ReadInConfig = .ok cfgEmpty
    ∧ Event.logFatal "[Notary Debug Server] error listening on debug interface: "
        ∉ (main (World.ofConfig cfgEmpty)).trace
    ∧ openedDSNs (main (World.ofConfig cfgEmpty)).trace = []
    ∧ storesConstructed (main (World.ofConfig cfgEmpty)).trace = [MetaStore.memStorage]
    ∧ (runCalls (main (World.ofConfig cfgEmpty)).trace).map RunCall.ctx
        = [WithValue Background "metaStore" MetaStore.memStorage]
    ∧ (getMysqlDB (World.ofConfig cfgMysqlPlain) cfgMysqlPlain).outcome
        = .ret ⟨"mysql", "root@tcp(db:3306)/notary"⟩
    ∧ storesConstructed (main (World.ofConfig cfgMysqlPlain)).trace
        = [MetaStore.mysqlStorage ⟨"mysql", "root@tcp(db:3306)/notary"⟩]
    ∧ (runCalls (main (World.ofConfig cfgMysqlPlain)).trace).map RunCall.ctx
        = [WithValue Background "metaStore"
            (MetaStore.mysqlStorage ⟨"mysql", "root@tcp(db:3306)/notary"⟩)] :=
  ⟨rfl, by decide,
    ((main_store_selection (World.ofConfig cfgEmpty) cfgEmpty rfl).1 (by decide)).1,
    (((main_store_selection (World.ofConfig cfgEmpty) cfgEmpty rfl).2 (by decide)).2
      (by decide)).1,
    (((main_store_selection (World.ofConfig cfgEmpty) cfgEmpty rfl).2 (by decide)).2
      (by decide)).2,
    by decide,
    (((main_store_selection (World.ofConfig cfgMysqlPlain) cfgMysqlPlain rfl).2 (by decide)).1
      (by decide) _ (by decide)).1,
    (((main_store_selection (World.ofConfig cfgMysqlPlain) cfgMysqlPlain rfl).2 (by decide)).1
      (by decide) _ (by decide)).2⟩

/-! ## The data source name with TLS on (C5) -/

/-- C5 fails on a data source name whose password holds a `/` and a `?`: the
name `user:p/w?d@tcp(db:3306)/notary` has no `?` after its last `/`, so no
parameter section, yet with `storage.db_use_ssl` on `getMysqlDB` opens it
followed by `&tls=notary`, not by `?tls=notary`. -/
theorem getMysqlDB_slash_in_password :
    cfgSlashInPassword.GetBool "storage.db_use_ssl" = true
    ∧ cfgSlashInPassword.GetString "storage.db_url" = "user:p/w?d@tcp(db:3306)/notary"
    ∧ hasParameterSection "user:p/w?d@tcp(db:3306)/notary" = false
    ∧ openedDSNs (getMysqlDB (World.ofConfig cfgSlashInPassword) cfgSlashInPassword).trace
        = ["user:p/w?d@tcp(db:3306)/notary&tls=notary"] := by
  decide

/-! ## No TLS (C6) -/

/-- C6: when `storage.db_use_ssl` is false, `getMysqlDB` calls `sql.Open`
once, with the configured `storage.db_url` unchanged, registers no TLS
configuration and reads no file. -/
theorem getMysqlDB_without_ssl (w : World) (v : Viper)
    (hssl : v.GetBool "storage.db_use_ssl" = false) :
    openedDSNs (getMysqlDB w v).trace = [v.GetString "storage.db_url"]
      ∧ registeredTLS (getMysqlDB w v).trace = []
      ∧ filesRead (getMysqlDB w v).trace = [] := by
  unfold getMysqlDB
  simp only [bind, Exec.bind, emit, pure, logrusFatal, hssl]
  repeat' split
  all_goals simp_all [openedDSNs, registeredTLS, filesRead]

/-- Witness of C6: the plain MySQL configuration. -/
theorem getMysqlDB_without_ssl_witness :
    cfgMysqlPlain.GetBool "storage.db_use_ssl" = false
    ∧ openedDSNs (getMysqlDB (World.ofConfig cfgMysqlPlain) cfgMysqlPlain).trace
        = ["root@tcp(db:3306)/notary"]
    ∧ registeredTLS (getMysqlDB (World.ofConfig cfgMysqlPlain) cfgMysqlPlain).trace = []
    ∧ filesRead (getMysqlDB (World.ofConfig cfgMysqlPlain) cfgMysqlPlain).trace = [] :=
  ⟨by decide,
    (getMysqlDB_without_ssl (World.ofConfig cfgMysqlPlain) cfgMysqlPlain (by decide)).1.trans
      (by decide),
    (getMysqlDB_without_ssl (World.ofConfig cfgMysqlPlain) cfgMysqlPlain (by decide)).2⟩

/-! ## Bad trust anchor (C8) -/

/-- C8: with `storage.db_use_ssl` on and a non-empty `storage.db_ssl_ca_cert`,
if the file cannot be read or no certificate is parsed from it, `getMysqlDB`
ends the process with status 1 and its whole trace holds no registration of a
TLS configuration and no `sql.Open`; with an empty path the one TLS
configuration registered, under the name `notary`, has no root pool. -/
theorem getMysqlDB_fails_closed (w : World) (v : Viper)
    (hssl : v.GetBool "storage.db_use_ssl" = true) :
    (v.GetString "storage.db_ssl_ca_cert" ≠ "" →
      ((∃ err, w.ReadFile (v.GetString "storage.db_ssl_ca_cert") = .error err)
        ∨ (∃ pem, w.ReadFile (v.GetString "storage.db_ssl_ca_cert") = .ok pem
            ∧ w.certsOfPEM pem = [])) →
      (getMysqlDB w v).outcome = .exited 1
        ∧ registeredTLS (getMysqlDB w v).trace = []
        ∧ openedDSNs (getMysqlDB w v).trace = [])
    ∧ (v.GetString "storage.db_ssl_ca_cert" = "" →
        registeredTLS (getMysqlDB w v).trace = [("notary", { RootCAs := none })]) := by
  constructor
  · intro hca hbad
    unfold getMysqlDB
    simp only [bind, Exec.bind, emit, pure, logrusFatal, hssl]
    rcases hbad with ⟨err, herr⟩ | ⟨pem, hpem, hcerts⟩
    · simp [herr, hca, openedDSNs, registeredTLS]
    · simp [hpem, hca, hcerts, AppendCertsFromPEM, openedDSNs, registeredTLS]
  · intro hca
    unfold getMysqlDB
    simp only [bind, Exec.bind, emit, pure, logrusFatal, hssl, hca]
    repeat' split
    all_goals simp_all [registeredTLS]

/-- Witness of C8: a missing certificate authority file, a file without any
certificate, and an empty path. -/
theorem getMysqlDB_fails_closed_witness :
    cfgMysqlMissingCA.GetBool "storage.db_use_ssl" = true
    ∧ ((getMysqlDB (World.ofConfig cfgMysqlMissingCA) cfgMysqlMissingCA).outcome = .exited 1
        ∧ registeredTLS (getMysqlDB (World.ofConfig cfgMysqlMissingCA) cfgMysqlMissingCA).trace
            = []
        ∧ openedDSNs (getMysqlDB (World.ofConfig cfgMysqlMissingCA) cfgMysqlMissingCA).trace
            = [])
    ∧ ((getMysqlDB worldGarbageCA cfgMysqlMissingCA).outcome = .exited 1
        ∧ registeredTLS (getMysqlDB worldGarbageCA cfgMysqlMissingCA).trace = []
        ∧ openedDSNs (getMysqlDB worldGarbageCA cfgMysqlMissingCA).trace = [])
    ∧ registeredTLS
        (getMysqlDB (World.ofConfig cfgMysqlDefaultRoots) cfgMysqlDefaultRoots).trace
          = [("notary", { RootCAs := none })] :=
  ⟨by decide,
    (getMysqlDB_fails_closed (World.ofConfig cfgMysqlMissingCA) cfgMysqlMissingCA
      (by decide)).1 (by decide) (Or.inl ⟨"open: no such file or directory", rfl⟩),
    (getMysqlDB_fails_closed worldGarbageCA cfgMysqlMissingCA
      (by decide)).1 (by decide) (Or.inr ⟨"not a certificate", rfl, rfl⟩),
    (getMysqlDB_fails_closed (World.ofConfig cfgMysqlDefaultRoots) cfgMysqlDefaultRoots
      (by decide)).2 (by decide)⟩

/-! ## Unreadable configuration (C9) -/

/-- What `mainBody` does when the configuration cannot be read. -/
theorem mainBody_config_error (w : World) (err : String)
    (herr : w.ReadInConfig = .error err) :
    (mainBody w).outcome = .exited 1
      ∧ trustConstructed (mainBody w).trace = []
      ∧ storesConstructed (mainBody w).trace = []
      ∧ openedDSNs (mainBody w).trace = []
      ∧ runCalls (mainBody w).trace = [] := by
  unfold mainBody
  simp only [bind, Exec.bind, emit, pure, osExit, herr]
  simp [trustConstructed, storesConstructed, openedDSNs, runCalls]

/-- C9: when `viper.ReadInConfig` fails, `main` exits with status 1 and its
whole trace holds no construction of a trust service or of a metadata store,
no `sql.Open` and no call of `server.Run`; and a trace that holds a call of
`server.Run` comes from a run in which the configuration was read. -/
theorem main_config_error (w : World) :
    (∀ err, w.ReadInConfig = .error err →
      (main w).outcome = .exited 1
        ∧ trustConstructed (main w).trace = []
        ∧ storesConstructed (main w).trace = []
        ∧ openedDSNs (main w).trace = []
        ∧ runCalls (main w).trace = [])
    ∧ (runCalls (main w).trace ≠ [] → ∃ v, w.ReadInConfig = .ok v) := by
  have key : ∀ err, w.ReadInConfig = .error err →
      (main w).outcome = .exited 1
        ∧ trustConstructed (main w).trace = []
        ∧ storesConstructed (main w).trace = []
        ∧ openedDSNs (main w).trace = []
        ∧ runCalls (main w).trace = [] := by
    intro err herr
    obtain ⟨hbo, hbT, hbS, hbD, hbR⟩ := mainBody_config_error w err herr
    refine ⟨?_, ?_, ?_, ?_, ?_⟩
    · rcases main_runCalls w with ⟨-, h⟩ | ⟨k, -, h, -⟩
      · rw [h, hbo]
      · exact h
    · rcases main_trustConstructed w with ⟨h, -⟩ | ⟨k, h, -, -⟩ <;> rw [h, hbT]
      exact List.take_nil
    · rcases main_storesConstructed w with ⟨h, -⟩ | ⟨k, h, -, -⟩ <;> rw [h, hbS]
      exact List.take_nil
    · rcases main_openedDSNs w with ⟨h, -⟩ | ⟨k, h, -, -⟩ <;> rw [h, hbD]
      exact List.take_nil
    · rcases main_runCalls w with ⟨h, -⟩ | ⟨k, h, -, -⟩ <;> rw [h, hbR]
      exact List.take_nil
  refine ⟨key, ?_⟩
  intro hrun
  cases hcfg : w.ReadInConfig with
  | error err => exact absurd (key err hcfg).2.2.2.2 hrun
  | ok v => exact ⟨v, rfl⟩

/-- Witness of C9: a run without a readable configuration, and a run that
reaches `server.Run`. -/
theorem main_config_error_witness :
    ((main worldNoConfig).outcome = .exited 1
        ∧ trustConstructed (main worldNoConfig).trace = []
        ∧ storesConstructed (main worldNoConfig).trace = []
        ∧ openedDSNs (main worldNoConfig).trace = []
        ∧ runCalls (main worldNoConfig).trace = [])
    ∧ runCalls (main (World.ofConfig cfgEmpty)).trace ≠ []
    ∧ (∃ v, (World.ofConfig cfgEmpty).ReadInConfig = .ok v) :=
  ⟨(main_config_error worldNoConfig).1 "Config File Not Found" rfl, by decide,
    (main_config_error (World.ofConfig cfgEmpty)).2 (by decide)⟩

/-! ## Version conflicts of the metadata store (C3) -/

/-- The other direction of the model: a bundle in which every role declares
the expected version is committed, one version appended per role. -/
theorem CommitBundle_accepts (s : Store) (collection : String) (bundle : Bundle)
    (h : ∀ r m, bundle r = some m → m.version = expectedVersion s collection r) :
    (CommitBundle s collection bundle).2 = none
    ∧ ∀ r m, bundle r = some m →
        (CommitBundle s collection bundle).1 collection r = s collection r ++ [m] := by
  have hall : (Role.all.all fun r =>
      match bundle r with
      | none => true
      | some m => decide (m.version = expectedVersion s collection r)) = true := by
    rw [List.all_eq_true]
    intro r _
    cases hb : bundle r with
    | none => rfl
    | some m => simpa using h r m hb
  unfold CommitBundle
  rw [if_pos hall]
  refine ⟨rfl, ?_⟩
  intro r m hb
  simp [hb]

/-! ## Signature threshold (C4) -/

theorem mem_validSignerIDs (check : String → String → String → Bool) (digest : String)
    (signatures : List Signature) (authorizedKeys : List String) (k : String) :
    k ∈ validSignerIDs check digest signatures authorizedKeys ↔
      k ∈ authorizedKeys ∧ ∃ s ∈ signatures, s.keyID = k ∧ check k digest s.sig = true := by
  unfold validSignerIDs
  rw [List.mem_filterMap]
  constructor
  · rintro ⟨s, hs, h⟩
    by_cases hc : s.keyID ∈ authorizedKeys ∧ check s.keyID digest s.sig = true
    · rw [if_pos hc] at h
      obtain rfl := Option.some.inj h
      exact ⟨hc.1, s, hs, rfl, hc.2⟩
    · rw [if_neg hc] at h
      cases h
  · rintro ⟨hk, s, hs, rfl, hc⟩
    exact ⟨s, hs, by rw [if_pos ⟨hk, hc⟩]⟩

/-- The count made signature by signature is the count made key by key. -/
theorem validSignerIDs_count (check : String → String → String → Bool) (digest : String)
    (signatures : List Signature) (authorizedKeys : List String) :
    (validSignerIDs check digest signatures authorizedKeys).dedup.length
      = distinctValidSigners check digest signatures authorizedKeys := by
  unfold distinctValidSigners
  apply List.Perm.length_eq
  rw [List.perm_ext_iff_of_nodup (List.nodup_dedup _) ((List.nodup_dedup _).filter _)]
  intro k
  simp only [List.mem_dedup, mem_validSignerIDs, List.mem_filter, List.any_eq_true,
    Bool.and_eq_true, decide_eq_true_eq]

/-- C4 as stated fails at threshold 0: one authorized key with a valid
signature makes the count 1, which is at least 0, yet `Verify` rejects. -/
theorem Verify_zero_threshold_counterexample :
    ¬ (Verify checkGood id "blob" [⟨"k1", "good"⟩] ["k1"] 0 = true ↔
        (0 : Int) ≤ (distinctValidSigners checkGood (id "blob") [⟨"k1", "good"⟩] ["k1"] : Int)) := by
  decide

/-- No verifier at all meets both clauses of C4 as stated: at threshold 0 the
first asks for acceptance and the second for rejection. -/
theorem no_verifier_meets_both_clauses :
    ¬ ∃ V : List Signature → List String → Int → Bool,
      (∀ sigs keys t, V sigs keys t = true ↔
        t ≤ (distinctValidSigners checkGood "digest" sigs keys : Int))
      ∧ (∀ sigs keys t, (keys = [] ∨ t ≤ 0) → V sigs keys t = false) := by
  rintro ⟨V, h1, h2⟩
  have ha : V [] [] 0 = true := (h1 [] [] 0).mpr (by simp)
  have hb : V [] [] 0 = false := h2 [] [] 0 (Or.inl rfl)
  rw [ha] at hb
  cases hb

/-- C4, amended: for a threshold greater than 0, `Verify` succeeds if and
only if the number of distinct authorized keys with at least one valid
signature over the blob is at least the threshold; and it rejects whenever the
authorized key set is empty or the threshold is at most 0. -/
theorem Verify_threshold (check : String → String → String → Bool)
    (canonicalDigest : String → String) (blob : String) (signatures : List Signature)
    (authorizedKeys : List String) (threshold : Int) :
    (0 < threshold →
      (Verify check canonicalDigest blob signatures authorizedKeys threshold = true ↔
        threshold ≤
          (distinctValidSigners check (canonicalDigest blob) signatures authorizedKeys : Int)))
    ∧ ((authorizedKeys = [] ∨ threshold ≤ 0) →
        Verify check canonicalDigest blob signatures authorizedKeys threshold = false) := by
  constructor
  · intro hpos
    unfold Verify
    rw [validSignerIDs_count]
    cases authorizedKeys with
    | nil =>
      have h0 : distinctValidSigners check (canonicalDigest blob) signatures [] = 0 := rfl
      simp [h0, hpos]
    | cons k ks =>
      have hnot : ¬ threshold ≤ 0 := not_le.mpr hpos
      simp [hnot]
  · intro h
    unfold Verify
    rcases h with h | h
    · simp [h]
    · simp [h]

/-- Witness of C4 amended: two signatures of one key count once, so threshold
1 is met and threshold 2 is not; threshold 0 is rejected. -/
theorem Verify_threshold_witness :
    Verify checkGood id "blob" [⟨"k1", "good"⟩, ⟨"k1", "good"⟩, ⟨"k2", "bad"⟩] ["k1", "k2"] 1
      = true
    ∧ Verify checkGood id "blob" [⟨"k1", "good"⟩, ⟨"k1", "good"⟩, ⟨"k2", "bad"⟩] ["k1", "k2"] 2
      = false
    ∧ Verify checkGood id "blob" [⟨"k1", "good"⟩] ["k1"] 0 = false :=
  ⟨((Verify_threshold checkGood id "blob"
        [⟨"k1", "good"⟩, ⟨"k1", "good"⟩, ⟨"k2", "bad"⟩] ["k1", "k2"] 1).1 (by decide)).mpr
      (by decide),
    by decide,
    (Verify_threshold checkGood id "blob" [⟨"k1", "good"⟩] ["k1"] 0).2 (Or.inr (by decide))⟩

/-! ## What the regular expression of `getMysqlDB` matches -/

theorem Regex.nullable_of_matches {r : Regex} {x : List Char} (h : r.Matches x)
    (hx : x = []) : r.nullable = true := by
  induction h with
  | eps => rfl
  | lit c => cases hx
  | anyCharNotNL c _ => cases hx
  | cat _ _ ih1 ih2 =>
    obtain ⟨h1, h2⟩ := List.append_eq_nil.mp hx
    simp [Regex.nullable, ih1 h1, ih2 h2]
  | altL _ ih => simp [Regex.nullable, ih hx]
  | altR _ ih => simp [Regex.nullable, ih hx]
  | starNil => rfl
  | starCons _ _ _ _ => cases hx

theorem Regex.matches_nil_of_nullable (r : Regex) (h : r.nullable = true) : r.Matches [] := by
  induction r with
  | empty => cases h
  | eps => exact .eps
  | lit c => cases h
  | anyCharNotNL => cases h
  | cat r q ihr ihq =>
    simp only [Regex.nullable, Bool.and_eq_true] at h
    exact Regex.Matches.cat (ihr h.1) (ihq h.2)
  | alt r q ihr ihq =>
    simp only [Regex.nullable, Bool.or_eq_true] at h
    rcases h with h | h
    · exact .altL (ihr h)
    · exact .altR (ihq h)
  | star r _ => exact .starNil

theorem Regex.nullable_iff (r : Regex) : r.nullable = true ↔ r.Matches [] :=
  ⟨r.matches_nil_of_nullable, fun h => Regex.nullable_of_matches h rfl⟩

theorem Regex.matches_cons_of_deriv (r : Regex) (c : Char) (s : List Char)
    (h : (r.deriv c).Matches s) : r.Matches (c :: s) := by
  induction r generalizing s with
  | empty => cases h
  | eps => cases h
  | lit d =>
    by_cases hcd : c = d
    · simp only [Regex.deriv, if_pos hcd] at h
      cases h
      subst hcd
      exact .lit c
    · simp only [Regex.deriv, if_neg hcd] at h
      cases h
  | anyCharNotNL =>
    by_cases hc : c = Char.ofNat 10
    · simp only [Regex.deriv, if_pos hc] at h
      cases h
    · simp only [Regex.deriv, if_neg hc] at h
      cases h
      exact .anyCharNotNL c hc
  | cat r q ihr ihq =>
    by_cases hn : r.nullable = true
    · simp only [Regex.deriv, if_pos hn] at h
      cases h with
      | altL h1 =>
        cases h1 with
        | cat h2 h3 => exact Regex.Matches.cat (ihr _ h2) h3
      | altR h1 => exact Regex.Matches.cat (r.matches_nil_of_nullable hn) (ihq _ h1)
    · simp only [Regex.deriv, if_neg hn] at h
      cases h with
      | cat h2 h3 => exact Regex.Matches.cat (ihr _ h2) h3
  | alt r q ihr ihq =>
    simp only [Regex.deriv] at h
    cases h with
    | altL h1 => exact .altL (ihr _ h1)
    | altR h1 => exact .altR (ihq _ h1)
  | star r ihr =>
    simp only [Regex.deriv] at h
    cases h with
    | cat h2 h3 => exact Regex.Matches.starCons (ihr _ h2) h3

theorem Regex.deriv_of_matches_cons {r : Regex} {x : List Char} (h : r.Matches x) :
    ∀ (c : Char) (s : List Char), x = c :: s → (r.deriv c).Matches s := by
  induction h with
  | eps => intro c s hx; cases hx
  | lit d =>
    intro c s hx
    cases hx
    simp only [Regex.deriv, if_true]
    exact .eps
  | anyCharNotNL d hd =>
    intro c s hx
    cases hx
    simp only [Regex.deriv, if_neg hd]
    exact .eps
  | @cat r q s1 t h1 h2 ih1 ih2 =>
    intro c s hx
    cases s1 with
    | nil =>
      have hn : r.nullable = true := Regex.nullable_of_matches h1 rfl
      simp only [Regex.deriv, if_pos hn]
      exact .altR (ih2 c s hx)
    | cons d s1 =>
      simp only [List.cons_append, List.cons.injEq] at hx
      obtain ⟨rfl, rfl⟩ := hx
      have hd := Regex.Matches.cat (ih1 d s1 rfl) h2
      by_cases hn : r.nullable = true
      · simp only [Regex.deriv, if_pos hn]
        exact .altL hd
      · simp only [Regex.deriv, if_neg hn]
        exact hd
  | altL _ ih =>
    intro c s hx
    simp only [Regex.deriv]
    exact .altL (ih c s hx)
  | altR _ ih =>
    intro c s hx
    simp only [Regex.deriv]
    exact .altR (ih c s hx)
  | starNil => intro c s hx; cases hx
  | @starCons r d s1 t h1 h2 ih1 _ =>
    intro c s hx
    simp only [List.cons.injEq] at hx
    obtain ⟨rfl, rfl⟩ := hx
    simp only [Regex.deriv]
    exact Regex.Matches.cat (ih1 d s1 rfl) h2

theorem Regex.deriv_iff (r : Regex) (c : Char) (s : List Char) :
    (r.deriv c).Matches s ↔ r.Matches (c :: s) :=
  ⟨r.matches_cons_of_deriv c s, fun h => Regex.deriv_of_matches_cons h c s rfl⟩

/-- The prefix matcher finds a match exactly when some prefix is matched. -/
theorem Regex.matchesPrefix_iff (r : Regex) (s : List Char) :
    r.matchesPrefix s = true ↔ ∃ p t, s = p ++ t ∧ r.Matches p := by
  induction s generalizing r with
  | nil =>
    rw [Regex.matchesPrefix, Regex.nullable_iff]
    constructor
    · intro h
      exact ⟨[], [], rfl, h⟩
    · rintro ⟨p, t, hpt, hm⟩
      obtain ⟨rfl, -⟩ := List.append_eq_nil.mp hpt.symm
      exact hm
  | cons c cs ih =>
    rw [Regex.matchesPrefix, Bool.or_eq_true, ih, Regex.nullable_iff]
    constructor
    · rintro (h | ⟨p, t, hpt, hm⟩)
      · exact ⟨[], c :: cs, rfl, h⟩
      · exact ⟨c :: p, t, by rw [hpt, List.cons_append], (r.deriv_iff c p).mp hm⟩
    · rintro ⟨p, t, hpt, hm⟩
      cases p with
      | nil => exact Or.inl hm
      | cons d p =>
        simp only [List.cons_append, List.cons.injEq] at hpt
        obtain ⟨rfl, rfl⟩ := hpt
        exact Or.inr ⟨p, t, rfl, (r.deriv_iff c p).mpr hm⟩

/-- The substring matcher finds a match exactly when some substring is
matched. -/
theorem Regex.matchesWithin_iff (r : Regex) (s : List Char) :
    r.matchesWithin s = true ↔ ∃ a p t, s = a ++ (p ++ t) ∧ r.Matches p := by
  induction s with
  | nil =>
    rw [Regex.matchesWithin, Regex.matchesPrefix_iff]
    constructor
    · rintro ⟨p, t, hpt, hm⟩
      exact ⟨[], p, t, hpt, hm⟩
    · rintro ⟨a, p, t, hpt, hm⟩
      obtain ⟨rfl, h2⟩ := List.append_eq_nil.mp hpt.symm
      exact ⟨p, t, h2.symm, hm⟩
  | cons c cs ih =>
    rw [Regex.matchesWithin, Bool.or_eq_true, ih, Regex.matchesPrefix_iff]
    constructor
    · rintro (⟨p, t, hpt, hm⟩ | ⟨a, p, t, hpt, hm⟩)
      · exact ⟨[], p, t, hpt, hm⟩
      · exact ⟨c :: a, p, t, by rw [hpt, List.cons_append], hm⟩
    · rintro ⟨a, p, t, hpt, hm⟩
      cases a with
      | nil => exact Or.inl ⟨p, t, hpt, hm⟩
      | cons d a =>
        simp only [List.cons_append, List.cons.injEq] at hpt
        exact Or.inr ⟨a, p, t, hpt.2, hm⟩

theorem Regex.star_anyCharNotNL_of_matches {r : Regex} {x : List Char} (h : r.Matches x)
    (hr : r = .star .anyCharNotNL) : Char.ofNat 10 ∉ x := by
  induction h with
  | eps => cases hr
  | lit c => cases hr
  | anyCharNotNL c _ => cases hr
  | cat _ _ _ _ => cases hr
  | altL _ _ => cases hr
  | altR _ _ => cases hr
  | starNil => simp
  | @starCons r c s t h1 _ _ ih2 =>
    cases hr
    cases h1 with
    | anyCharNotNL _ hc =>
      have ht := ih2 rfl
      simp only [List.nil_append, List.mem_cons, not_or]
      exact ⟨fun h => hc h.symm, ht⟩

theorem Regex.star_anyCharNotNL_iff (s : List Char) :
    (Regex.star .anyCharNotNL).Matches s ↔ Char.ofNat 10 ∉ s := by
  constructor
  · intro h
    exact Regex.star_anyCharNotNL_of_matches h rfl
  · intro h
    induction s with
    | nil => exact .starNil
    | cons c cs ih =>
      simp only [List.mem_cons, not_or] at h
      exact Regex.Matches.starCons (s := []) (.anyCharNotNL c (fun hc => h.1 hc.symm)) (ih h.2)

/-- The texts `/.*\?` matches in full: a slash, a run without newline, a
question mark. -/
theorem dsnParamsRegexp_matches_iff (m : List Char) :
    dsnParamsRegexp.Matches m ↔ ∃ mid, m = '/' :: (mid ++ ['?']) ∧ Char.ofNat 10 ∉ mid := by
  unfold dsnParamsRegexp
  constructor
  · intro h
    cases h with
    | cat h1 h2 =>
      cases h1
      cases h2 with
      | cat h3 h4 =>
        cases h4
        exact ⟨_, rfl, (Regex.star_anyCharNotNL_iff _).mp h3⟩
  · rintro ⟨mid, rfl, hmid⟩
    exact Regex.Matches.cat (s := ['/']) (.lit '/')
      (Regex.Matches.cat ((Regex.star_anyCharNotNL_iff mid).mpr hmid) (.lit '?'))

/-- The test of `getMysqlDB` on a data source name: `MatchString` holds
exactly when the name holds a `/` and, later, a `?` with no newline between
the two, wherever in the name they stand. -/
theorem MatchString_dsnParamsRegexp_iff (s : String) :
    MatchString dsnParamsRegexp s = true ↔
      ∃ a mid b, s.data = a ++ ('/' :: (mid ++ '?' :: b)) ∧ Char.ofNat 10 ∉ mid := by
  unfold MatchString
  rw [Regex.matchesWithin_iff]
  constructor
  · rintro ⟨a, p, t, hs, hm⟩
    obtain ⟨mid, rfl, hmid⟩ := (dsnParamsRegexp_matches_iff p).mp hm
    exact ⟨a, mid, t, by simp [hs], hmid⟩
  · rintro ⟨a, mid, b, hs, hmid⟩
    exact ⟨a, '/' :: (mid ++ ['?']), b, by simp [hs],
      (dsnParamsRegexp_matches_iff _).mpr ⟨mid, rfl, hmid⟩⟩

/-! ## The regular expression against the parameter section -/

theorem afterLastSlash_none (cs : List Char) (h : afterLastSlash cs = none) : '/' ∉ cs := by
  induction cs with
  | nil => simp
  | cons c cs ih =>
    rw [afterLastSlash] at h
    cases hr : afterLastSlash cs with
    | some r => simp [hr] at h
    | none =>
      simp only [hr] at h
      by_cases hc : c = '/'
      · simp [hc] at h
      · simp only [List.mem_cons, not_or]
        exact ⟨fun e => hc e.symm, ih hr⟩

theorem afterLastSlash_some (cs r : List Char) (h : afterLastSlash cs = some r) :
    ∃ a, cs = a ++ '/' :: r ∧ '/' ∉ r := by
  induction cs with
  | nil => simp [afterLastSlash] at h
  | cons c cs ih =>
    rw [afterLastSlash] at h
    cases hr : afterLastSlash cs with
    | some r1 =>
      simp only [hr, Option.some.injEq] at h
      subst h
      obtain ⟨a, ha, hno⟩ := ih hr
      exact ⟨c :: a, by rw [ha, List.cons_append], hno⟩
    | none =>
      simp only [hr] at h
      by_cases hc : c = '/'
      · simp only [hc, if_true, Option.some.injEq] at h
        subst h
        exact ⟨[], by simp [hc], afterLastSlash_none _ hr⟩
      · simp [hc] at h

/-- On a data source name without newline in which no `?` stands before the
last `/`, the test of `getMysqlDB` is the test for a parameter section. -/
theorem MatchString_eq_hasParameterSection (s : String)
    (hnl : Char.ofNat 10 ∉ s.data)
    (hq : ∀ a r, s.data = a ++ '/' :: r → '/' ∉ r → '?' ∉ a) :
    MatchString dsnParamsRegexp s = hasParameterSection s := by
  rw [Bool.eq_iff_iff, MatchString_dsnParamsRegexp_iff]
  unfold hasParameterSection
  constructor
  · rintro ⟨a, mid, b, hs, -⟩
    cases hr : afterLastSlash s.data with
    | none =>
      exact absurd (by rw [hs]; simp) (afterLastSlash_none _ hr)
    | some r =>
      obtain ⟨a1, ha1, hno⟩ := afterLastSlash_some _ _ hr
      have hqa : '?' ∉ a1 := hq a1 r ha1 hno
      have hmem : '?' ∈ s.data := by rw [hs]; simp
      rw [ha1] at hmem
      simp only [List.mem_append, List.mem_cons] at hmem
      rcases hmem with h | h | h
      · exact absurd h hqa
      · exact absurd h (by decide)
      · simpa using h
  · intro h
    cases hr : afterLastSlash s.data with
    | none => simp [hr] at h
    | some r =>
      have h : '?' ∈ r := by simpa [hr] using h
      obtain ⟨a1, ha1, -⟩ := afterLastSlash_some _ _ hr
      obtain ⟨mid, b, rfl⟩ := List.append_of_mem h
      refine ⟨a1, mid, b, ha1, ?_⟩
      intro hmid
      apply hnl
      rw [ha1]
      simp [hmid]

/-- With TLS on and `sql.Open` reached, `getMysqlDB` does what C5 says on
every data source name without newline in which no `?` stands before the last
`/`: it appends `&tls=notary` when the name has a parameter section and
`?tls=notary` when it has none. -/
theorem getMysqlDB_dsn_on_plain_names (w : World) (v : Viper)
    (hssl : v.GetBool "storage.db_use_ssl" = true)
    (hopen : openedDSNs (getMysqlDB w v).trace ≠ [])
    (hnl : Char.ofNat 10 ∉ (v.GetString "storage.db_url").data)
    (hq : ∀ a r, (v.GetString "storage.db_url").data = a ++ '/' :: r → '/' ∉ r → '?' ∉ a) :
    openedDSNs (getMysqlDB w v).trace =
      [v.GetString "storage.db_url" ++
        (if hasParameterSection (v.GetString "storage.db_url") then "&tls=notary"
          else "?tls=notary")] := by
  rw [getMysqlDB_with_ssl_dsn w v hssl hopen, MatchString_eq_hasParameterSection _ hnl hq]

/-- With TLS on and `sql.Open` reached, `getMysqlDB` appends `&tls=notary`
to every data source name that holds a `/` and, later, a `?` with no newline
between the two, also when that `?` stands before the last `/`. -/
theorem getMysqlDB_dsn_ampersand (w : World) (v : Viper)
    (hssl : v.GetBool "storage.db_use_ssl" = true)
    (hopen : openedDSNs (getMysqlDB w v).trace ≠ [])
    (hm : ∃ a mid b, (v.GetString "storage.db_url").data = a ++ ('/' :: (mid ++ '?' :: b))
      ∧ Char.ofNat 10 ∉ mid) :
    openedDSNs (getMysqlDB w v).trace = [v.GetString "storage.db_url" ++ "&tls=notary"] := by
  rw [getMysqlDB_with_ssl_dsn w v hssl hopen,
    if_pos ((MatchString_dsnParamsRegexp_iff _).mpr hm)]

end Notary
